import Mathlib

/-!
Verification of the Workflowy Go client library.

This file gives a shallow embedding, in Lean, of the library's transport
core (client.go) and resource operations (api.go), and proves properties
of the embedded definitions.  Go machine integers are modelled as `Int`
with explicit wrap-around where 64-bit overflow matters; durations are
`Int` nanoseconds, as in Go's time.Duration; fallible code returns
`Option` or `Except`.  The Go standard library collaborators that the
code uses (strings.TrimSpace, strconv.ParseInt, encoding/json,
net/url escaping) are modelled byte- and rune-faithfully for the shapes
this library exchanges; net/http.ParseTime is injected as a parameter,
as the spec requires the "now"-dependent parsing to be.
-/

namespace Workflowy

/-! ## Go string helpers (strings.TrimSpace, strings.TrimLeft/TrimRight) -/

/-- Models unicode.IsSpace: Go's White_Space property, an explicit finite
set of code points. -/
def goIsSpace (c : Char) : Bool :=
  c = ' ' ∨ c = '\t' ∨ c = '\n' ∨ c.toNat = 0x0B ∨ c.toNat = 0x0C ∨ c = '\r' ∨
  c.toNat = 0x85 ∨ c.toNat = 0xA0 ∨ c.toNat = 0x1680 ∨
  (0x2000 ≤ c.toNat ∧ c.toNat ≤ 0x200A) ∨
  c.toNat = 0x2028 ∨ c.toNat = 0x2029 ∨ c.toNat = 0x202F ∨
  c.toNat = 0x205F ∨ c.toNat = 0x3000

/-- Models strings.TrimSpace: drop leading and trailing white space. -/
def goTrimSpace (s : String) : String :=
  String.mk (((s.data.dropWhile goIsSpace).reverse.dropWhile goIsSpace).reverse)

/-- Models strings.TrimRight(s, "/"): drop trailing slash characters. -/
def goTrimRightSlashes (s : String) : String :=
  String.mk ((s.data.reverse.dropWhile (fun c => c = '/')).reverse)

/-- Models strings.TrimLeft(s, "/"): drop leading slash characters. -/
def goTrimLeftSlashes (s : String) : String :=
  String.mk (s.data.dropWhile (fun c => c = '/'))

/-! ## strconv.ParseInt(s, 10, 64) -/

/-- Accumulates the value of a run of decimal digits; `none` if any
character is not an ASCII digit. -/
def decDigitsVal : List Char → Nat → Option Nat
  | [], acc => some acc
  | c :: cs, acc =>
    if '0' ≤ c ∧ c ≤ '9' then decDigitsVal cs (acc * 10 + (c.toNat - '0'.toNat))
    else none

/-- Models strconv.ParseInt(s, 10, 64): an optional single sign followed by
at least one decimal digit, rejecting values outside the int64 range. -/
def goParseInt64 (s : String) : Option Int :=
  match s.data with
  | [] => none
  | c :: cs =>
    let signDigits : Bool × List Char :=
      if c = '-' then (true, cs) else if c = '+' then (false, cs) else (false, c :: cs)
    if signDigits.2.isEmpty then none
    else
      match decDigitsVal signDigits.2 0 with
      | none => none
      | some n =>
        if signDigits.1 then
          if n ≤ 2 ^ 63 then some (-(n : Int)) else none
        else
          if n < 2 ^ 63 then some (n : Int) else none

/-! ## 64-bit arithmetic (Go int64 / time.Duration) -/

/-- Largest int64 value (Go math.MaxInt64, also time.Duration's maximum). -/
def int64Max : Int := 9223372036854775807

/-- Smallest int64 value. -/
def int64Min : Int := -9223372036854775808

/-- Wrap-around of an integer into the int64 range, as Go's signed 64-bit
arithmetic does on overflow. -/
def wrap64 (x : Int) : Int := (x + 2 ^ 63) % 2 ^ 64 - 2 ^ 63

/-- Models `time.Duration(secs) * time.Second`: multiplication by 10^9 in
wrapping 64-bit arithmetic, yielding nanoseconds. -/
def durationOfSeconds (secs : Int) : Int := wrap64 (secs * 1000000000)

/-- Models time.Time.Sub on wall-clock nanosecond instants: the difference
saturates at the int64 duration bounds rather than wrapping. -/
def timeSub (t u : Int) : Int :=
  if int64Max < t - u then int64Max
  else if t - u < int64Min then int64Min
  else t - u

/-! ## parseRetryAfter (client.go) -/

/-- Literal translation of parseRetryAfter: a Retry-After header is either
a number of seconds or an HTTP-date.  `parseTime` injects
net/http.ParseTime (an external stdlib collaborator), returning the
parsed instant in nanoseconds; `now` is the injected current instant in
nanoseconds.  Returns the duration to wait, in nanoseconds. -/
def parseRetryAfter (parseTime : String → Option Int) (h : String) (now : Int) : Int :=
  if h = "" then 0
  else
    match goParseInt64 (goTrimSpace h) with
    | some secs => durationOfSeconds (if secs < 0 then 0 else secs)
    | none =>
      match parseTime h with
      | some retryAt =>
        let interval := timeSub retryAt now
        if interval < 0 then 0 else interval
      | none => 0

/-! ## JSON values

JSON trees are modelled by a mutual inductive family (value / array
spine / object field spine) so that the encoder and the decoders are
plain structural recursions.  Numbers are integral, which covers every
field of this API's wire format. -/

mutual
inductive GoJson where
  | null
  | bool (b : Bool)
  | num (n : Int)
  | str (s : String)
  | arr (elems : GoJsonList)
  | obj (fields : GoJsonFields)
inductive GoJsonList where
  | nil
  | cons (head : GoJson) (tail : GoJsonList)
inductive GoJsonFields where
  | nil
  | cons (key : String) (value : GoJson) (tail : GoJsonFields)
end

/-- Builds an object field spine from a list of key/value pairs. -/
def GoJsonFields.ofList : List (String × GoJson) → GoJsonFields
  | [] => GoJsonFields.nil
  | (k, v) :: rest => GoJsonFields.cons k v (GoJsonFields.ofList rest)

/-- Object value from a list of fields. -/
def GoJson.objOf (l : List (String × GoJson)) : GoJson :=
  GoJson.obj (GoJsonFields.ofList l)

/-! ## encoding/json: string quoting and compact encoding -/

/-- Lower-case hexadecimal digit, as encoding/json uses. -/
def lowerHexDigit (n : Nat) : Char :=
  "0123456789abcdef".data.getD n '0'

/-- Models how encoding/json writes one rune of a string value.  When
`escapeHTML` is set (the encoder default), the characters
less-than, greater-than and ampersand are written as unicode escapes;
the library turns this off via SetEscapeHTML(false). -/
def escRune (escapeHTML : Bool) (c : Char) : String :=
  if c = '"' then "\\\""
  else if c = '\\' then "\\\\"
  else if escapeHTML ∧ c = '<' then "\\u003c"
  else if escapeHTML ∧ c = '>' then "\\u003e"
  else if escapeHTML ∧ c = '&' then "\\u0026"
  else if c = '\n' then "\\n"
  else if c = '\r' then "\\r"
  else if c = '\t' then "\\t"
  else if c.toNat < 0x20 then
    String.mk ['\\', 'u', '0', '0', lowerHexDigit (c.toNat / 16), lowerHexDigit (c.toNat % 16)]
  else if c.toNat = 0x2028 then "\\u2028"
  else if c.toNat = 0x2029 then "\\u2029"
  else String.singleton c

/-- Concatenation of the images of a character list under `f`. -/
def concatMap (f : Char → String) : List Char → String
  | [] => ""
  | c :: cs => f c ++ concatMap f cs

/-- Models encoding/json's quoted string form of `s`. -/
def goQuote (escapeHTML : Bool) (s : String) : String :=
  "\"" ++ concatMap (escRune escapeHTML) s.data ++ "\""

/-- Decimal digits of a natural number (via the fuelled core routine, so
it reduces in the kernel). -/
def natRepr (n : Nat) : String :=
  String.mk (Nat.toDigits 10 n)

/-- Models strconv-style decimal form of an int64 value. -/
def intRepr (n : Int) : String :=
  if n < 0 then "-" ++ natRepr (-n).toNat else natRepr n.toNat

mutual
/-- Compact JSON encoding of a value, as encoding/json produces (no
added whitespace); `escapeHTML` selects the string-escaping mode. -/
def jsonEncode (escapeHTML : Bool) : GoJson → String
  | GoJson.null => "null"
  | GoJson.bool true => "true"
  | GoJson.bool false => "false"
  | GoJson.num n => intRepr n
  | GoJson.str s => goQuote escapeHTML s
  | GoJson.arr xs => "[" ++ jsonEncodeList escapeHTML xs ++ "]"
  | GoJson.obj fs => "\x7b" ++ jsonEncodeFields escapeHTML fs ++ "\x7d"
/-- Comma-separated encoding of an array spine. -/
def jsonEncodeList (escapeHTML : Bool) : GoJsonList → String
  | GoJsonList.nil => ""
  | GoJsonList.cons x GoJsonList.nil => jsonEncode escapeHTML x
  | GoJsonList.cons x (GoJsonList.cons y t) =>
    jsonEncode escapeHTML x ++ "," ++ jsonEncodeList escapeHTML (GoJsonList.cons y t)
/-- Comma-separated encoding of an object field spine. -/
def jsonEncodeFields (escapeHTML : Bool) : GoJsonFields → String
  | GoJsonFields.nil => ""
  | GoJsonFields.cons k v GoJsonFields.nil =>
    goQuote escapeHTML k ++ ":" ++ jsonEncode escapeHTML v
  | GoJsonFields.cons k v (GoJsonFields.cons k2 v2 t) =>
    goQuote escapeHTML k ++ ":" ++ jsonEncode escapeHTML v ++ "," ++
      jsonEncodeFields escapeHTML (GoJsonFields.cons k2 v2 t)
end

/-! ## net/url escaping -/

/-- Upper-case hexadecimal digit, as net/url percent-escaping uses. -/
def upperHexDigit (n : Nat) : Char :=
  "0123456789ABCDEF".data.getD n '0'

/-- Percent-escapes one byte. -/
def percentEscapeByte (b : Nat) : String :=
  String.mk ['%', upperHexDigit (b / 16), upperHexDigit (b % 16)]

/-- Bytes net/url leaves unescaped in a path segment: alphanumerics, the
unreserved marks `-_.~`, and the reserved characters dollar, ampersand,
plus, colon, equals, at-sign. -/
def isPathSegmentByte (b : Nat) : Bool :=
  (0x61 ≤ b ∧ b ≤ 0x7A) ∨ (0x41 ≤ b ∧ b ≤ 0x5A) ∨ (0x30 ≤ b ∧ b ≤ 0x39) ∨
  b = 0x2D ∨ b = 0x5F ∨ b = 0x2E ∨ b = 0x7E ∨
  b = 0x24 ∨ b = 0x26 ∨ b = 0x2B ∨ b = 0x3A ∨ b = 0x3D ∨ b = 0x40

/-- Models url.PathEscape over the UTF-8 bytes of `s`. -/
def pathEscape (s : String) : String :=
  String.join (s.toUTF8.data.toList.map (fun b =>
    if isPathSegmentByte b.toNat then String.singleton (Char.ofNat b.toNat)
    else percentEscapeByte b.toNat))

/-- Bytes net/url leaves unescaped in a query component: alphanumerics and
the unreserved marks only. -/
def isQueryByte (b : Nat) : Bool :=
  (0x61 ≤ b ∧ b ≤ 0x7A) ∨ (0x41 ≤ b ∧ b ≤ 0x5A) ∨ (0x30 ≤ b ∧ b ≤ 0x39) ∨
  b = 0x2D ∨ b = 0x5F ∨ b = 0x2E ∨ b = 0x7E

/-- Models url.QueryEscape over the UTF-8 bytes of `s` (space becomes a
plus sign). -/
def queryEscape (s : String) : String :=
  String.join (s.toUTF8.data.toList.map (fun b =>
    if b.toNat = 0x20 then "+"
    else if isQueryByte b.toNat then String.singleton (Char.ofNat b.toNat)
    else percentEscapeByte b.toNat))

/-! ## Client configuration (client.go) -/

/-- Default base URL for the Workflowy API (the BaseURL constant). -/
def BaseURL : String := "https://workflowy.com/api/v1"

/-- The API client's configuration fields.  The http.Client handle is
modelled separately by the `Net` environment given to each call. -/
structure Client where
  apiKey : String
  baseURL : String
deriving DecidableEq

/-- Models NewClient: trims the key and uses the default base URL. -/
def NewClient (apiKey : String) : Client :=
  { apiKey := goTrimSpace apiKey, baseURL := BaseURL }

/-- Models SetBaseURL: trims whitespace and trailing slashes; an empty
result resets to the default. -/
def Client.setBaseURL (c : Client) (baseURL : String) : Client :=
  let trimmedBase := goTrimRightSlashes (goTrimSpace baseURL)
  if trimmedBase = "" then { c with baseURL := BaseURL }
  else { c with baseURL := trimmedBase }

/-- Models joinURL: joins the base URL and a path with exactly one
separating slash; an empty or root path yields the bare base URL. -/
def Client.joinURL (c : Client) (path : String) : String :=
  if path = "" ∨ path = "/" then c.baseURL
  else c.baseURL ++ "/" ++ goTrimLeftSlashes path

/-! ## Request construction (newRequest) -/

/-- Models *http.Request as the retry loop observes it: `bodyStream` is
the current request body reader's remaining content (`none` when the
request has no body), `getBody` is the captured copy that GetBody
replays, and the headers are those newRequest sets. -/
structure GoRequest where
  method : String
  url : String
  bodyStream : Option String
  getBody : Option String
  contentLength : Int
  headers : List (String × String)
deriving DecidableEq

/-- Models newRequest: serializes an optional body with a compact JSON
encoder whose HTML escaping is disabled (plus the trailing newline that
Encoder.Encode writes), captures the raw bytes for replay via GetBody,
and sets the authentication and content headers. -/
def newRequest (c : Client) (method path : String) (body : Option GoJson) : GoRequest :=
  let rawBody : Option String := body.map (fun b => jsonEncode false b ++ "\n")
  { method := method
    url := c.joinURL path
    bodyStream := rawBody
    getBody := rawBody
    contentLength := match rawBody with | none => 0 | some s => (s.utf8ByteSize : Int)
    headers :=
      [("Authorization", "Bearer " ++ c.apiKey), ("Accept", "application/json")] ++
      (match body with | none => [] | some _ => [("Content-Type", "application/json")]) ++
      [("User-Agent", "workflowy-go/0.1 (+https://workflowy.com)")] }

/-! ## Best-effort decoding of an APIError payload -/

/-- Models the tolerated decode of a non-2xx body into APIError's
`message` and `error` fields: fields fill in key order and a type
mismatch stops decoding, keeping whatever was already filled. -/
def apiErrorFieldsLoop : GoJsonFields → String → String → String × String
  | GoJsonFields.nil, m, e => (m, e)
  | GoJsonFields.cons k v rest, m, e =>
    if k = "message" then
      match v with
      | GoJson.str s => apiErrorFieldsLoop rest s e
      | GoJson.null => apiErrorFieldsLoop rest m e
      | _ => (m, e)
    else if k = "error" then
      match v with
      | GoJson.str s => apiErrorFieldsLoop rest m s
      | GoJson.null => apiErrorFieldsLoop rest m e
      | _ => (m, e)
    else apiErrorFieldsLoop rest m e

/-- Best-effort `message`/`error` fields of a non-2xx response body; any
decode failure is swallowed, leaving empty fields. -/
def decodeAPIErrorFields : GoJson → String × String
  | GoJson.obj fs => apiErrorFieldsLoop fs "" ""
  | _ => ("", "")

/-! ## The retry loop (do) -/

/-- One transport exchange as the loop sees it: a connection-level error,
or a response with a status code, a Retry-After header value, and a
parsed JSON body. -/
inductive TransportStep where
  | netErr
  | resp (status : Nat) (retryAfter : String) (body : GoJson)

/-- The environment of one call: the transport's behaviour per attempt
index, whether the caller's context is signalled during the wait that
follows an attempt, the injected net/http.ParseTime, and the wall clock
at each attempt. -/
structure Net where
  transport : Nat → TransportStep
  ctxDoneDuringWait : Nat → Bool
  parseTime : String → Option Int
  now : Nat → Int

/-- Outcome of `do`: a connection-level error surfaced as-is, the
caller's context error, a classified APIError (status code plus
best-effort message and error-text), a decode failure of a success
body, or success with the decoded value. -/
inductive DoResult (α : Type) where
  | transportErr
  | ctxErr
  | apiError (status : Nat) (message : String) (errorText : String)
  | decodeErr
  | success (value : α)
deriving DecidableEq

/-- A finished run of `do`: its outcome, the total number of attempts
performed, and the body content offered to the transport at each
attempt (in order). -/
structure DoRun (α : Type) where
  result : DoResult α
  attempts : Nat
  sentBodies : List (Option String)
deriving DecidableEq

/-- Maximum number of 429 retries (the max429Retries constant). -/
def max429Retries : Nat := 3

/-- The request state after an attempt is sent and, ahead of a resend,
the body is reset: sending drains the body stream; when both GetBody
and the (drained) stream are present the stream is restored to the
captured copy, as the retry loop does before `continue`. -/
def afterSendReset (req : GoRequest) : GoRequest :=
  let reqAfterSend : GoRequest := { req with bodyStream := req.bodyStream.map (fun _ => "") }
  if reqAfterSend.getBody.isSome ∧ reqAfterSend.bodyStream.isSome then
    { reqAfterSend with bodyStream := reqAfterSend.getBody }
  else reqAfterSend

/-- Literal translation of the `do` loop from attempt index `attempt`
onward.  Sending an attempt consumes the body stream; on a retryable
429 the body is reset from the captured GetBody copy when both are
present.  `decodeBody` is the JSON decode into the caller-supplied
output shape; a call with no output (v = nil in Go) passes
`fun _ => some ()`, which never fails, since the body is not decoded at
all.  `fuel` only bounds the recursion: the loop leaves via the
attempt-count guard before fuel can run out (goDo supplies
`max429Retries`, and the loop recurses only while
`attempt < max429Retries`), so the fuel-exhausted arm is unreachable. -/
def doLoopAux {α : Type} (decodeBody : GoJson → Option α) (net : Net) :
    Nat → GoRequest → Nat → DoRun α
  | fuel, req, attempt =>
    let sent := req.bodyStream
    match net.transport attempt with
    | TransportStep.netErr => ⟨DoResult.transportErr, attempt + 1, [sent]⟩
    | TransportStep.resp status retryAfter body =>
      if status = 429 then
        let wait := parseRetryAfter net.parseTime retryAfter (net.now attempt)
        if wait ≤ 0 ∨ max429Retries ≤ attempt then
          ⟨DoResult.apiError 429 "too many requests" "", attempt + 1, [sent]⟩
        else if net.ctxDoneDuringWait attempt then
          ⟨DoResult.ctxErr, attempt + 1, [sent]⟩
        else
          match fuel with
          | 0 => ⟨DoResult.apiError 429 "too many requests" "", attempt + 1, [sent]⟩
          | Nat.succ f =>
            let rest := doLoopAux decodeBody net f (afterSendReset req) (attempt + 1)
            ⟨rest.result, rest.attempts, sent :: rest.sentBodies⟩
      else if status < 200 ∨ 300 ≤ status then
        ⟨DoResult.apiError status (decodeAPIErrorFields body).1 (decodeAPIErrorFields body).2,
          attempt + 1, [sent]⟩
      else
        match decodeBody body with
        | some v => ⟨DoResult.success v, attempt + 1, [sent]⟩
        | none => ⟨DoResult.decodeErr, attempt + 1, [sent]⟩

/-- Models `do`: runs the loop from attempt 0. -/
def goDo {α : Type} (decodeBody : GoJson → Option α) (net : Net) (req : GoRequest) : DoRun α :=
  doLoopAux decodeBody net max429Retries req 0

/-! ## Data types (node.go) -/

/-- Nested node metadata (the NodeData struct); LayoutMode is an opaque
string tag. -/
structure NodeData where
  layoutMode : String
deriving DecidableEq

/-- A Workflowy node (the Node struct).  Go pointer fields are `Option`;
Go int/int64 fields are `Int`. -/
structure Node where
  id : String
  name : String
  note : Option String
  priority : Int
  data : NodeData
  completed : Bool
  createdAt : Int
  modifiedAt : Int
  completedAt : Option Int
deriving DecidableEq

/-- The zero Node value, as Go leaves an undecoded struct. -/
def zeroNode : Node :=
  { id := "", name := "", note := none, priority := 0,
    data := { layoutMode := "" }, completed := false,
    createdAt := 0, modifiedAt := 0, completedAt := none }

/-! ## encoding/json decoding into the response shapes

These model Go's json.Decode semantics for the struct shapes this
library reads: keys fill fields in order of appearance (a later
duplicate overwrites), unknown keys are skipped, a JSON null leaves a
non-pointer field unchanged and sets a pointer or slice field to nil,
a type mismatch is a decode error, and a top-level null leaves the
whole output at its zero value. -/

/-- Decodes a JSON value into a Go string field with current value
`cur`. -/
def goDecStr (cur : String) : GoJson → Option String
  | GoJson.null => some cur
  | GoJson.str s => some s
  | _ => none

/-- Decodes a JSON value into a Go bool field. -/
def goDecBool (cur : Bool) : GoJson → Option Bool
  | GoJson.null => some cur
  | GoJson.bool b => some b
  | _ => none

/-- Decodes a JSON value into a Go int/int64 field (out-of-range numbers
are a decode error). -/
def goDecInt64 (cur : Int) : GoJson → Option Int
  | GoJson.null => some cur
  | GoJson.num n => if int64Min ≤ n ∧ n ≤ int64Max then some n else none
  | _ => none

/-- Decodes a JSON value into a Go *string field (null sets nil). -/
def goDecOptStr (cur : Option String) : GoJson → Option (Option String)
  | GoJson.null => some none
  | GoJson.str s => some (some s)
  | _ => (fun _ => none) cur

/-- Decodes a JSON value into a Go *int64 field (null sets nil). -/
def goDecOptInt64 (cur : Option Int) : GoJson → Option (Option Int)
  | GoJson.null => some none
  | GoJson.num n => if int64Min ≤ n ∧ n ≤ int64Max then some (some n) else none
  | _ => (fun _ => none) cur

/-- Decodes object fields into a NodeData value, merging over `acc`. -/
def decodeNodeDataFields : GoJsonFields → NodeData → Option NodeData
  | GoJsonFields.nil, acc => some acc
  | GoJsonFields.cons k v rest, acc =>
    if k = "layoutMode" then
      match goDecStr acc.layoutMode v with
      | some s => decodeNodeDataFields rest { layoutMode := s }
      | none => none
    else decodeNodeDataFields rest acc

/-- Decodes a JSON value into a NodeData struct field. -/
def decodeNodeDataInto (acc : NodeData) : GoJson → Option NodeData
  | GoJson.null => some acc
  | GoJson.obj fs => decodeNodeDataFields fs acc
  | _ => none

/-- Decodes object fields into a Node value, merging over `acc`, keyed by
the struct's json tags. -/
def decodeNodeFields : GoJsonFields → Node → Option Node
  | GoJsonFields.nil, acc => some acc
  | GoJsonFields.cons k v rest, acc =>
    if k = "id" then
      match goDecStr acc.id v with
      | some x => decodeNodeFields rest { acc with id := x }
      | none => none
    else if k = "name" then
      match goDecStr acc.name v with
      | some x => decodeNodeFields rest { acc with name := x }
      | none => none
    else if k = "note" then
      match goDecOptStr acc.note v with
      | some x => decodeNodeFields rest { acc with note := x }
      | none => none
    else if k = "priority" then
      match goDecInt64 acc.priority v with
      | some x => decodeNodeFields rest { acc with priority := x }
      | none => none
    else if k = "data" then
      match decodeNodeDataInto acc.data v with
      | some x => decodeNodeFields rest { acc with data := x }
      | none => none
    else if k = "completed" then
      match goDecBool acc.completed v with
      | some x => decodeNodeFields rest { acc with completed := x }
      | none => none
    else if k = "createdAt" then
      match goDecInt64 acc.createdAt v with
      | some x => decodeNodeFields rest { acc with createdAt := x }
      | none => none
    else if k = "modifiedAt" then
      match goDecInt64 acc.modifiedAt v with
      | some x => decodeNodeFields rest { acc with modifiedAt := x }
      | none => none
    else if k = "completedAt" then
      match goDecOptInt64 acc.completedAt v with
      | some x => decodeNodeFields rest { acc with completedAt := x }
      | none => none
    else decodeNodeFields rest acc

/-- Decodes a JSON value into a Node struct field. -/
def decodeNodeInto (acc : Node) : GoJson → Option Node
  | GoJson.null => some acc
  | GoJson.obj fs => decodeNodeFields fs acc
  | _ => none

/-- Decodes GetNode's envelope, `struct{ Node Node }` with tag "node":
no validation of the payload beyond JSON shape. -/
def decodeNodeEnvelopeFields : GoJsonFields → Node → Option Node
  | GoJsonFields.nil, acc => some acc
  | GoJsonFields.cons k v rest, acc =>
    if k = "node" then
      match decodeNodeInto acc v with
      | some x => decodeNodeEnvelopeFields rest x
      | none => none
    else decodeNodeEnvelopeFields rest acc

/-- Decodes a GetNode response body. -/
def decodeNodeEnvelope : GoJson → Option Node
  | GoJson.null => some zeroNode
  | GoJson.obj fs => decodeNodeEnvelopeFields fs zeroNode
  | _ => none

/-- Decodes a JSON array spine into a Go []*Node: each element is a
pointer, nil for a null element. -/
def decodeNodePtrList : GoJsonList → Option (List (Option Node))
  | GoJsonList.nil => some []
  | GoJsonList.cons x rest =>
    match (match x with
           | GoJson.null => some none
           | _ => (decodeNodeInto zeroNode x).map some) with
    | none => none
    | some hd =>
      match decodeNodePtrList rest with
      | none => none
      | some tl => some (hd :: tl)

/-- Decodes ListNodes' envelope, `struct{ Nodes []*Node }` with tag
"nodes": the outer `Option` is decode success, the inner `Option` is
slice nil-ness (a missing or null field leaves the slice nil). -/
def decodeNodesEnvelopeFields : GoJsonFields → Option (List (Option Node)) →
    Option (Option (List (Option Node)))
  | GoJsonFields.nil, acc => some acc
  | GoJsonFields.cons k v rest, acc =>
    if k = "nodes" then
      match v with
      | GoJson.null => decodeNodesEnvelopeFields rest none
      | GoJson.arr xs =>
        match decodeNodePtrList xs with
        | some l => decodeNodesEnvelopeFields rest (some l)
        | none => none
      | _ => none
    else decodeNodesEnvelopeFields rest acc

/-- Decodes a ListNodes response body. -/
def decodeNodesEnvelope : GoJson → Option (Option (List (Option Node)))
  | GoJson.null => some none
  | GoJson.obj fs => decodeNodesEnvelopeFields fs none
  | _ => none

/-- Decodes the statusResponse shape, `struct{ Status string }` with tag
"status" (a missing field leaves the empty string). -/
def decodeStatusFields : GoJsonFields → String → Option String
  | GoJsonFields.nil, acc => some acc
  | GoJsonFields.cons k v rest, acc =>
    if k = "status" then
      match goDecStr acc v with
      | some x => decodeStatusFields rest x
      | none => none
    else decodeStatusFields rest acc

/-- Decodes a mutation response body into its status marker. -/
def decodeStatus : GoJson → Option String
  | GoJson.null => some ""
  | GoJson.obj fs => decodeStatusFields fs ""
  | _ => none

/-- Decodes CreateNode's response shape, `struct{ ItemID string }` with
tag "item_id". -/
def decodeItemIDFields : GoJsonFields → String → Option String
  | GoJsonFields.nil, acc => some acc
  | GoJsonFields.cons k v rest, acc =>
    if k = "item_id" then
      match goDecStr acc v with
      | some x => decodeItemIDFields rest x
      | none => none
    else decodeItemIDFields rest acc

/-- Decodes a CreateNode response body into the created identifier. -/
def decodeItemID : GoJson → Option String
  | GoJson.null => some ""
  | GoJson.obj fs => decodeItemIDFields fs ""
  | _ => none

/-! ## Errors surfaced by the operations -/

/-- The error kinds an operation can return: a local validation error
(fmt.Errorf before any request), the APIError classification, the
context's cancellation error, a connection-level error, a decode error
of a success body, the "unexpected status" contract violation, and the
"empty item_id in response" contract violation. -/
inductive GoError where
  | validation (msg : String)
  | api (status : Nat) (message : String) (errorText : String)
  | ctxCanceled
  | transport
  | decodeFailure
  | unexpectedStatus (status : String)
  | emptyItemID
deriving DecidableEq

deriving instance DecidableEq for Except

/-- True exactly for the local-validation error kind. -/
def GoError.isLocalValidation : GoError → Bool
  | GoError.validation _ => true
  | _ => false

/-- True when an operation's result is a local-validation error. -/
def resultIsLocalValidation {α : Type} : Except GoError α → Bool
  | Except.error e => e.isLocalValidation
  | Except.ok _ => false

/-- Maps a finished `do` outcome to the error/value an operation sees. -/
def doResultToExcept {α : Type} : DoResult α → Except GoError α
  | DoResult.transportErr => Except.error GoError.transport
  | DoResult.ctxErr => Except.error GoError.ctxCanceled
  | DoResult.apiError s m e => Except.error (GoError.api s m e)
  | DoResult.decodeErr => Except.error GoError.decodeFailure
  | DoResult.success v => Except.ok v

/-! ## Operation inputs (api.go) and their JSON forms -/

/-- The Create input struct; pointer fields are `Option`, LayoutMode and
Position are string tags. -/
structure Create where
  parentID : String
  name : String
  note : Option String
  layoutMode : Option String
  position : Option String
deriving DecidableEq

/-- JSON form of a Create body per its field tags: parent_id has
omitempty, name is always present, the pointer fields appear when
non-nil. -/
def Create.toJson (v : Create) : GoJson :=
  GoJson.objOf
    ((if v.parentID = "" then [] else [("parent_id", GoJson.str v.parentID)]) ++
     [("name", GoJson.str v.name)] ++
     (match v.note with | none => [] | some s => [("note", GoJson.str s)]) ++
     (match v.layoutMode with | none => [] | some s => [("layoutMode", GoJson.str s)]) ++
     (match v.position with | none => [] | some s => [("position", GoJson.str s)]))

/-- The Update input struct. -/
structure Update where
  name : Option String
  note : Option String
  layoutMode : Option String
deriving DecidableEq

/-- JSON form of an Update body: every field is a pointer with
omitempty. -/
def Update.toJson (v : Update) : GoJson :=
  GoJson.objOf
    ((match v.name with | none => [] | some s => [("name", GoJson.str s)]) ++
     (match v.note with | none => [] | some s => [("note", GoJson.str s)]) ++
     (match v.layoutMode with | none => [] | some s => [("layoutMode", GoJson.str s)]))

/-- The Move input struct. -/
structure Move where
  parentID : String
  position : Option String
deriving DecidableEq

/-- JSON form of a Move body: parent_id always present, position with
omitempty. -/
def Move.toJson (v : Move) : GoJson :=
  GoJson.objOf
    ([("parent_id", GoJson.str v.parentID)] ++
     (match v.position with | none => [] | some s => [("position", GoJson.str s)]))

/-! ## Resource operations (api.go)

Each operation returns the Go function's result together with the
`do` run's per-attempt body log, which is empty exactly when no request
was constructed or sent (the local-validation case). -/

/-- Models GetNode.  The `Option Node` in the result is the returned
*Node pointer. -/
def GetNode (c : Client) (net : Net) (nodeID : String) :
    Except GoError (Option Node) × List (Option String) :=
  if nodeID = "" then (Except.error (GoError.validation "nodeID is required"), [])
  else
    let req := newRequest c "GET" ("/nodes/" ++ pathEscape nodeID) none
    let run := goDo decodeNodeEnvelope net req
    match doResultToExcept run.result with
    | Except.error e => (Except.error e, run.sentBodies)
    | Except.ok nd => (Except.ok (some nd), run.sentBodies)

/-- Models ListNodes.  The result's inner `Option` is the returned
[]*Node slice, `none` when nil. -/
def ListNodes (c : Client) (net : Net) (parentID : String) :
    Except GoError (Option (List (Option Node))) × List (Option String) :=
  let path := if parentID = "" then "/nodes" else "/nodes" ++ "?parent_id=" ++ queryEscape parentID
  let req := newRequest c "GET" path none
  let run := goDo decodeNodesEnvelope net req
  match doResultToExcept run.result with
  | Except.error e => (Except.error e, run.sentBodies)
  | Except.ok ns => (Except.ok ns, run.sentBodies)

/-- Models CreateNode: requires a non-empty name, posts the body, and
treats an empty decoded item_id as a contract violation. -/
def CreateNode (c : Client) (net : Net) (input : Create) :
    Except GoError String × List (Option String) :=
  if input.name = "" then (Except.error (GoError.validation "name is required"), [])
  else
    let req := newRequest c "POST" "/nodes" (some input.toJson)
    let run := goDo decodeItemID net req
    match doResultToExcept run.result with
    | Except.error e => (Except.error e, run.sentBodies)
    | Except.ok itemID =>
      if itemID = "" then (Except.error GoError.emptyItemID, run.sentBodies)
      else (Except.ok itemID, run.sentBodies)

/-- Models UpdateNode: posts the partial body and requires the status
marker "ok". -/
def UpdateNode (c : Client) (net : Net) (nodeID : String) (input : Update) :
    Except GoError Unit × List (Option String) :=
  if nodeID = "" then (Except.error (GoError.validation "nodeID is required"), [])
  else
    let req := newRequest c "POST" ("/nodes/" ++ pathEscape nodeID) (some input.toJson)
    let run := goDo decodeStatus net req
    match doResultToExcept run.result with
    | Except.error e => (Except.error e, run.sentBodies)
    | Except.ok st =>
      if st ≠ "ok" then (Except.error (GoError.unexpectedStatus st), run.sentBodies)
      else (Except.ok (), run.sentBodies)

/-- Models MoveNode: requires a non-empty node identifier and a non-empty
destination parent, posts the body, and requires the status marker
"ok". -/
def MoveNode (c : Client) (net : Net) (nodeID : String) (input : Move) :
    Except GoError Unit × List (Option String) :=
  if nodeID = "" then (Except.error (GoError.validation "nodeID is required"), [])
  else if input.parentID = "" then (Except.error (GoError.validation "parentID is required"), [])
  else
    let req := newRequest c "POST" ("/nodes/" ++ pathEscape nodeID ++ "/move") (some input.toJson)
    let run := goDo decodeStatus net req
    match doResultToExcept run.result with
    | Except.error e => (Except.error e, run.sentBodies)
    | Except.ok st =>
      if st ≠ "ok" then (Except.error (GoError.unexpectedStatus st), run.sentBodies)
      else (Except.ok (), run.sentBodies)

/-- Models DeleteNode: sends DELETE and passes a nil output to `do`, so a
2xx response succeeds with the body discarded undecoded. -/
def DeleteNode (c : Client) (net : Net) (nodeID : String) :
    Except GoError Unit × List (Option String) :=
  if nodeID = "" then (Except.error (GoError.validation "nodeID is required"), [])
  else
    let req := newRequest c "DELETE" ("/nodes/" ++ pathEscape nodeID) none
    let run := goDo (fun _ => some ()) net req
    (doResultToExcept run.result, run.sentBodies)

/-- Models CompleteNode: posts with no body and requires the status
marker "ok". -/
def CompleteNode (c : Client) (net : Net) (nodeID : String) :
    Except GoError Unit × List (Option String) :=
  if nodeID = "" then (Except.error (GoError.validation "nodeID is required"), [])
  else
    let req := newRequest c "POST" ("/nodes/" ++ pathEscape nodeID ++ "/complete") none
    let run := goDo decodeStatus net req
    match doResultToExcept run.result with
    | Except.error e => (Except.error e, run.sentBodies)
    | Except.ok st =>
      if st ≠ "ok" then (Except.error (GoError.unexpectedStatus st), run.sentBodies)
      else (Except.ok (), run.sentBodies)

/-- Models UncompleteNode: posts with no body and requires the status
marker "ok". -/
def UncompleteNode (c : Client) (net : Net) (nodeID : String) :
    Except GoError Unit × List (Option String) :=
  if nodeID = "" then (Except.error (GoError.validation "nodeID is required"), [])
  else
    let req := newRequest c "POST" ("/nodes/" ++ pathEscape nodeID ++ "/uncomplete") none
    let run := goDo decodeStatus net req
    match doResultToExcept run.result with
    | Except.error e => (Except.error e, run.sentBodies)
    | Except.ok st =>
      if st ≠ "ok" then (Except.error (GoError.unexpectedStatus st), run.sentBodies)
      else (Except.ok (), run.sentBodies)

/-! ## Helper environments for concrete scenarios -/

/-- An environment whose transport answers every attempt with the same
response and whose context is never signalled. -/
def constNet (status : Nat) (retryAfter : String) (body : GoJson) : Net :=
  { transport := fun _ => TransportStep.resp status retryAfter body
    ctxDoneDuringWait := fun _ => false
    parseTime := fun _ => none
    now := fun _ => 0 }

/-- Number of occurrences of a character in a string. -/
def countChar (c : Char) (s : String) : Nat :=
  s.data.countP (fun x => x = c)

/-- An environment whose transport answers every attempt with a 429
response (header and body may vary per attempt) and whose context is
never signalled. -/
def always429Net (hdr : Nat → String) (body : Nat → GoJson)
    (pt : String → Option Int) (clock : Nat → Int) : Net :=
  { transport := fun i => TransportStep.resp 429 (hdr i) (body i)
    ctxDoneDuringWait := fun _ => false
    parseTime := pt
    now := clock }

/-! # Theorems -/

/-! ## Generic facts about 64-bit wrap-around -/

/-- Wrapping is the identity inside the int64 range. -/
theorem wrap64_eq_self (x : Int) (h1 : -(2 ^ 63) ≤ x) (h2 : x < 2 ^ 63) : wrap64 x = x := by
  unfold wrap64
  have e63 : (2 : Int) ^ 63 = 9223372036854775808 := by norm_num
  have e64 : (2 : Int) ^ 64 = 18446744073709551616 := by norm_num
  have h3 : 0 ≤ x + 2 ^ 63 := by omega
  have h4 : x + 2 ^ 63 < 2 ^ 64 := by omega
  rw [Int.emod_eq_of_lt h3 h4]
  omega

/-! ## Generic facts about the retry loop -/

/-- A 429 with a non-positive wait, or one at the retry cap, stops the
loop with the classified 429 error. -/
theorem doLoopAux_stop {α : Type} (dec : GoJson → Option α) (net : Net)
    (fuel : Nat) (req : GoRequest) (attempt : Nat) (hdrv : String) (bodyv : GoJson)
    (htr : net.transport attempt = TransportStep.resp 429 hdrv bodyv)
    (hstop : parseRetryAfter net.parseTime hdrv (net.now attempt) ≤ 0 ∨ max429Retries ≤ attempt) :
    doLoopAux dec net fuel req attempt =
      ⟨DoResult.apiError 429 "too many requests" "", attempt + 1, [req.bodyStream]⟩ := by
  cases fuel <;>
    (rw [doLoopAux, htr]
     dsimp only
     split_ifs with h1 h2 <;>
       first
         | rfl
         | exact absurd rfl h1
         | exact absurd hstop h2)

/-- A retryable 429 whose wait is interrupted by the context yields the
context's error. -/
theorem doLoopAux_ctx {α : Type} (dec : GoJson → Option α) (net : Net)
    (fuel : Nat) (req : GoRequest) (attempt : Nat) (hdrv : String) (bodyv : GoJson)
    (htr : net.transport attempt = TransportStep.resp 429 hdrv bodyv)
    (hw : 0 < parseRetryAfter net.parseTime hdrv (net.now attempt))
    (hatt : attempt < max429Retries)
    (hctx : net.ctxDoneDuringWait attempt = true) :
    doLoopAux dec net fuel req attempt = ⟨DoResult.ctxErr, attempt + 1, [req.bodyStream]⟩ := by
  cases fuel <;>
    (rw [doLoopAux, htr]
     dsimp only
     split_ifs with h1 h2 h3 <;>
       first
         | rfl
         | exact absurd rfl h1
         | exact absurd h2 (not_or.mpr ⟨not_le.mpr hw, not_le.mpr hatt⟩)
         | exact absurd hctx h3)

/-- A retryable 429 whose wait elapses resends the (reset) request and
continues the loop at the next attempt. -/
theorem doLoopAux_step {α : Type} (dec : GoJson → Option α) (net : Net)
    (f : Nat) (req : GoRequest) (attempt : Nat) (hdrv : String) (bodyv : GoJson)
    (htr : net.transport attempt = TransportStep.resp 429 hdrv bodyv)
    (hw : 0 < parseRetryAfter net.parseTime hdrv (net.now attempt))
    (hatt : attempt < max429Retries)
    (hctx : net.ctxDoneDuringWait attempt = false) :
    doLoopAux dec net (Nat.succ f) req attempt =
      ⟨(doLoopAux dec net f (afterSendReset req) (attempt + 1)).result,
       (doLoopAux dec net f (afterSendReset req) (attempt + 1)).attempts,
       req.bodyStream :: (doLoopAux dec net f (afterSendReset req) (attempt + 1)).sentBodies⟩ := by
  rw [doLoopAux, htr]
  dsimp only
  split_ifs with h1 h2 h3 <;>
    first
      | rfl
      | exact absurd rfl h1
      | exact absurd h2 (not_or.mpr ⟨not_le.mpr hw, not_le.mpr hatt⟩)
      | exact absurd h3 (by simp [hctx])

/-- A 2xx response ends the loop by decoding the body (or reporting a
decode failure). -/
theorem doLoopAux_done {α : Type} (dec : GoJson → Option α) (net : Net)
    (fuel : Nat) (req : GoRequest) (attempt : Nat)
    (status : Nat) (hdrv : String) (bodyv : GoJson)
    (htr : net.transport attempt = TransportStep.resp status hdrv bodyv)
    (h429 : ¬status = 429) (hlo : 200 ≤ status) (hhi : status < 300) :
    doLoopAux dec net fuel req attempt =
      (match dec bodyv with
       | some v => ⟨DoResult.success v, attempt + 1, [req.bodyStream]⟩
       | none => ⟨DoResult.decodeErr, attempt + 1, [req.bodyStream]⟩) := by
  cases fuel <;>
    (rw [doLoopAux, htr]
     dsimp only
     rw [if_neg h429, if_neg (not_or.mpr ⟨not_lt.mpr hlo, not_le.mpr hhi⟩)])

/-- Every run performs at least one attempt past its starting index. -/
theorem doLoopAux_attempts_ge {α : Type} (dec : GoJson → Option α) (net : Net) :
    ∀ (fuel : Nat) (req : GoRequest) (attempt : Nat),
      attempt + 1 ≤ (doLoopAux dec net fuel req attempt).attempts := by
  intro fuel
  induction fuel with
  | zero =>
    intro req attempt
    rw [doLoopAux]
    cases htr : net.transport attempt with
    | netErr => simp
    | resp status hdrv bodyv =>
      dsimp only
      split_ifs <;> try simp
      cases dec bodyv <;> simp
  | succ f ih =>
    intro req attempt
    rw [doLoopAux]
    cases htr : net.transport attempt with
    | netErr => simp
    | resp status hdrv bodyv =>
      dsimp only
      split_ifs <;> try simp
      · have := ih (afterSendReset req) (attempt + 1)
        omega
      · cases dec bodyv <;> simp

/-- A request whose stream and captured copy agree is unchanged by the
send-and-reset cycle. -/
theorem afterSendReset_of_full (req : GoRequest) (raw : String)
    (h1 : req.bodyStream = some raw) (h2 : req.getBody = some raw) :
    afterSendReset req = req := by
  cases req
  simp_all [afterSendReset]

/-- In a run whose request carries body `raw` both as the live stream and
as the captured GetBody copy, every attempt offers exactly `raw` to the
transport. -/
theorem doLoopAux_sent_eq {α : Type} (dec : GoJson → Option α) (net : Net) (raw : String) :
    ∀ (fuel : Nat) (req : GoRequest) (attempt : Nat),
      req.bodyStream = some raw → req.getBody = some raw →
      ∀ b ∈ (doLoopAux dec net fuel req attempt).sentBodies, b = some raw := by
  intro fuel
  induction fuel with
  | zero =>
    intro req attempt h1 h2 b hb
    rw [doLoopAux] at hb
    cases htr : net.transport attempt with
    | netErr => rw [htr] at hb; simp_all
    | resp status hdrv bodyv =>
      rw [htr] at hb
      dsimp only at hb
      split_ifs at hb <;> try simp_all
      cases hdec : dec bodyv <;> rw [hdec] at hb <;> simp_all
  | succ f ih =>
    intro req attempt h1 h2 b hb
    rw [doLoopAux] at hb
    cases htr : net.transport attempt with
    | netErr => rw [htr] at hb; simp_all
    | resp status hdrv bodyv =>
      rw [htr] at hb
      dsimp only at hb
      split_ifs at hb <;> try simp_all
      · rcases hb with hb | hb
        · exact hb
        · exact ih (afterSendReset req) (attempt + 1)
            (by rw [afterSendReset_of_full req raw h1 h2]; exact h1)
            (by rw [afterSendReset_of_full req raw h1 h2]; exact h2) b hb
      · cases hdec : dec bodyv <;> rw [hdec] at hb <;> simp_all

/-! ## C2: Retry-After parsing -/

/-- C2 (amended): parseRetryAfter is a pure deterministic function of the
header string and the injected "now".  The header "N", for a
non-negative integer N, yields a duration of N seconds provided
N·10⁹ fits in int64 (N ≤ 9223372036); beyond that bound the Go
multiplication into nanoseconds wraps 64-bit arithmetic and the result
is not N seconds.  A negative integer yields zero.  An HTTP-date (a
header the integer parse rejects, accepted by the injected
net/http.ParseTime) yields the duration from "now" to that date,
clamped to zero when the date is not in the future and saturated to the
int64 range.  An empty or unparseable header yields zero. -/
theorem parseRetryAfter_spec (pt : String → Option Int) (h : String) (now : Int) :
    (parseRetryAfter pt "" now = 0)
    ∧ (∀ n : Int, goParseInt64 (goTrimSpace h) = some n → 0 ≤ n → n ≤ 9223372036 →
        parseRetryAfter pt h now = n * 1000000000)
    ∧ (∀ n : Int, goParseInt64 (goTrimSpace h) = some n → n < 0 →
        parseRetryAfter pt h now = 0)
    ∧ (∀ t : Int, h ≠ "" → goParseInt64 (goTrimSpace h) = none → pt h = some t →
        ((t ≤ now → parseRetryAfter pt h now = 0)
         ∧ (now ≤ t → t - now ≤ int64Max → parseRetryAfter pt h now = t - now)))
    ∧ (h ≠ "" → goParseInt64 (goTrimSpace h) = none → pt h = none →
        parseRetryAfter pt h now = 0) := by
  have hne : ∀ n : Int, goParseInt64 (goTrimSpace h) = some n → h ≠ "" := by
    intro n hsome he
    subst he
    simp [goTrimSpace, goParseInt64] at hsome
  refine ⟨rfl, ?_, ?_, ?_, ?_⟩
  · intro n hsome h0 hle
    rw [parseRetryAfter, if_neg (hne n hsome), hsome]
    dsimp only
    rw [if_neg (not_lt.mpr h0)]
    unfold durationOfSeconds
    apply wrap64_eq_self
    · have : (0 : Int) ≤ n * 1000000000 := by positivity
      omega
    · have : n * 1000000000 ≤ 9223372036 * 1000000000 := by
        exact mul_le_mul_of_nonneg_right hle (by norm_num)
      have e63 : (2 : Int) ^ 63 = 9223372036854775808 := by norm_num
      omega
  · intro n hsome hneg
    rw [parseRetryAfter, if_neg (hne n hsome), hsome]
    dsimp only
    rw [if_pos hneg]
    unfold durationOfSeconds wrap64
    norm_num
  · intro t hne2 hnone hpt
    rw [parseRetryAfter, if_neg hne2, hnone, hpt]
    dsimp only
    simp only [timeSub, int64Max, int64Min]
    constructor
    · intro hpast
      split_ifs <;> omega
    · intro hfut hfit
      split_ifs <;> omega
  · intro hne2 hnone hptn
    rw [parseRetryAfter, if_neg hne2, hnone, hptn]

/-- C2 counterexample: the header "10000000000" (10^10, within int64 but
whose nanosecond value overflows) does not yield 10^10 seconds; the
wrapped duration is in fact negative. -/
theorem parseRetryAfter_overflow_counterexample :
    parseRetryAfter (fun _ => none) "10000000000" 0 ≠ 10000000000 * 1000000000
    ∧ parseRetryAfter (fun _ => none) "10000000000" 0 < 0 := by
  decide

/-- C2 witness: the amended theorem applied at "7", "-5", and an
HTTP-date-like header resolved 10 seconds into the future. -/
theorem parseRetryAfter_spec_witness :
    parseRetryAfter (fun _ => none) "7" 0 = 7 * 1000000000
    ∧ parseRetryAfter (fun _ => none) "-5" 0 = 0
    ∧ parseRetryAfter (fun s => if s = "Mon, 02 Jan 2006 15:04:15 GMT" then some 10000000000 else none)
        "Mon, 02 Jan 2006 15:04:15 GMT" 0 = 10000000000 - 0
    ∧ parseRetryAfter (fun _ => none) "garbage" 0 = 0 := by
  refine ⟨?_, ?_, ?_, ?_⟩
  · exact (parseRetryAfter_spec (fun _ => none) "7" 0).2.1 7 (by decide) (by decide) (by decide)
  · exact (parseRetryAfter_spec (fun _ => none) "-5" 0).2.2.1 (-5) (by decide) (by decide)
  · exact (((parseRetryAfter_spec _ "Mon, 02 Jan 2006 15:04:15 GMT" 0).2.2.2.1
      10000000000 (by decide) (by decide) (by simp)).2 (by decide) (by decide))
  · exact (parseRetryAfter_spec (fun _ => none) "garbage" 0).2.2.2.2 (by decide) (by decide) rfl

/-! ## C9: base URL normalization -/

/-- C9 (amended): SetBaseURL stores the given string with surrounding
whitespace and trailing slashes removed whenever that trimmed form is
non-empty; when the argument is empty — or trims to empty, as "/" or a
blank string does — it resets the stored base URL to the default
"https://workflowy.com/api/v1". -/
theorem setBaseURL_normalizes (c : Client) (s : String) :
    (goTrimRightSlashes (goTrimSpace s) ≠ "" →
      (c.setBaseURL s).baseURL = goTrimRightSlashes (goTrimSpace s))
    ∧ (goTrimRightSlashes (goTrimSpace s) = "" → (c.setBaseURL s).baseURL = BaseURL)
    ∧ (c.setBaseURL "https://example.org/api/").baseURL = "https://example.org/api"
    ∧ (c.setBaseURL "").baseURL = BaseURL := by
  refine ⟨?_, ?_, ?_, ?_⟩
  · intro hnonempty
    simp only [Client.setBaseURL]
    rw [if_neg hnonempty]
  · intro hempty
    simp only [Client.setBaseURL]
    rw [if_pos hempty]
  · simp only [Client.setBaseURL]
    rw [show goTrimRightSlashes (goTrimSpace "https://example.org/api/") = "https://example.org/api"
          from by decide]
    rw [if_neg (by decide)]
  · simp only [Client.setBaseURL]
    rw [if_pos (by decide)]

/-- C9 counterexample: for the input "/" the stored value is the default
base URL, not the trimmed form of the input (which is empty), so the
all-strings normalization sentence fails at "/". -/
theorem setBaseURL_root_counterexample :
    ((NewClient "k").setBaseURL "/").baseURL ≠ goTrimRightSlashes (goTrimSpace "/")
    ∧ ((NewClient "k").setBaseURL "/").baseURL = "https://workflowy.com/api/v1" := by
  decide

/-- C9 witness: the amended theorem applied to a trailing-slash URL. -/
theorem setBaseURL_normalizes_witness :
    ((NewClient "a").setBaseURL "https://example.org/api/").baseURL =
      goTrimRightSlashes (goTrimSpace "https://example.org/api/") :=
  (setBaseURL_normalizes (NewClient "a") "https://example.org/api/").1 (by decide)

/-! ## C1: retry bound under an always-429 transport -/

/-- C1: against a transport that returns HTTP 429 on every attempt (with
the caller's context never signalled): if the parsed Retry-After wait
at the first attempt is non-positive the call stops after exactly 1
attempt, and if the parsed wait is positive at every attempt the call
performs exactly 4 total attempts (initial plus 3 retries); in both
cases it returns the classified APIError carrying status 429. -/
theorem do_retry_bound (α : Type) (dec : GoJson → Option α) (hdr : Nat → String)
    (body : Nat → GoJson) (pt : String → Option Int) (clock : Nat → Int) (req : GoRequest) :
    (parseRetryAfter pt (hdr 0) (clock 0) ≤ 0 →
      goDo dec (always429Net hdr body pt clock) req =
        ⟨DoResult.apiError 429 "too many requests" "", 1, [req.bodyStream]⟩)
    ∧ ((∀ i, 0 < parseRetryAfter pt (hdr i) (clock i)) →
      (goDo dec (always429Net hdr body pt clock) req).result =
          DoResult.apiError 429 "too many requests" ""
        ∧ (goDo dec (always429Net hdr body pt clock) req).attempts = 4) := by
  constructor
  · intro h0
    exact doLoopAux_stop dec (always429Net hdr body pt clock) max429Retries req 0
      (hdr 0) (body 0) rfl (Or.inl h0)
  · intro hpos
    set net := always429Net hdr body pt clock with hnet
    let r1 := afterSendReset req
    let r2 := afterSendReset r1
    let r3 := afterSendReset r2
    have e0 : doLoopAux dec net 3 req 0 =
        ⟨(doLoopAux dec net 2 r1 1).result, (doLoopAux dec net 2 r1 1).attempts,
         req.bodyStream :: (doLoopAux dec net 2 r1 1).sentBodies⟩ :=
      doLoopAux_step dec net 2 req 0 (hdr 0) (body 0) rfl (hpos 0) (by decide) rfl
    have e1 : doLoopAux dec net 2 r1 1 =
        ⟨(doLoopAux dec net 1 r2 2).result, (doLoopAux dec net 1 r2 2).attempts,
         r1.bodyStream :: (doLoopAux dec net 1 r2 2).sentBodies⟩ :=
      doLoopAux_step dec net 1 r1 1 (hdr 1) (body 1) rfl (hpos 1) (by decide) rfl
    have e2 : doLoopAux dec net 1 r2 2 =
        ⟨(doLoopAux dec net 0 r3 3).result, (doLoopAux dec net 0 r3 3).attempts,
         r2.bodyStream :: (doLoopAux dec net 0 r3 3).sentBodies⟩ :=
      doLoopAux_step dec net 0 r2 2 (hdr 2) (body 2) rfl (hpos 2) (by decide) rfl
    have e3 : doLoopAux dec net 0 r3 3 =
        ⟨DoResult.apiError 429 "too many requests" "", 4, [r3.bodyStream]⟩ :=
      doLoopAux_stop dec net 0 r3 3 (hdr 3) (body 3) rfl (Or.inr (by decide))
    have eall : goDo dec net req = doLoopAux dec net 3 req 0 := rfl
    rw [eall, e0]
    dsimp only
    rw [e1]
    dsimp only
    rw [e2]
    dsimp only
    rw [e3]
    exact ⟨rfl, rfl⟩

/-- C1 witness: with Retry-After "0" the run is a single attempt; with
Retry-After "1" at every attempt it is exactly 4 attempts, both ending
in the 429-classified error. -/
theorem do_retry_bound_witness :
    goDo (fun _ => some ()) (always429Net (fun _ => "0") (fun _ => GoJson.null)
        (fun _ => none) (fun _ => 0)) (newRequest (NewClient "k") "GET" "/nodes" none) =
      ⟨DoResult.apiError 429 "too many requests" "",
       1, [(newRequest (NewClient "k") "GET" "/nodes" none).bodyStream]⟩
    ∧ (goDo (fun _ => some ()) (always429Net (fun _ => "1") (fun _ => GoJson.null)
        (fun _ => none) (fun _ => 0)) (newRequest (NewClient "k") "GET" "/nodes" none)).result =
      DoResult.apiError 429 "too many requests" ""
    ∧ (goDo (fun _ => some ()) (always429Net (fun _ => "1") (fun _ => GoJson.null)
        (fun _ => none) (fun _ => 0)) (newRequest (NewClient "k") "GET" "/nodes" none)).attempts = 4 := by
  refine ⟨?_, ?_, ?_⟩
  · exact (do_retry_bound Unit (fun _ => some ()) (fun _ => "0") (fun _ => GoJson.null)
      (fun _ => none) (fun _ => 0) (newRequest (NewClient "k") "GET" "/nodes" none)).1 (by decide)
  · exact ((do_retry_bound Unit (fun _ => some ()) (fun _ => "1") (fun _ => GoJson.null)
      (fun _ => none) (fun _ => 0) (newRequest (NewClient "k") "GET" "/nodes" none)).2
      (fun i => by decide)).1
  · exact ((do_retry_bound Unit (fun _ => some ()) (fun _ => "1") (fun _ => GoJson.null)
      (fun _ => none) (fun _ => 0) (newRequest (NewClient "k") "GET" "/nodes" none)).2
      (fun i => by decide)).2

/-! ## C3: cancellation takes precedence over a pending retry wait -/

/-- If the transport keeps answering 429 with a positive wait and the
context stays quiet through attempt index `attempt + k`, the run
reaches the wait after that attempt; if the context fires during that
wait the run ends there with the context's error, and if not, at least
one further attempt is sent. -/
theorem doLoopAux_reach {α : Type} (dec : GoJson → Option α) (net : Net) :
    ∀ (k fuel attempt : Nat) (req : GoRequest),
      attempt + k < max429Retries →
      max429Retries ≤ fuel + attempt →
      (∀ i, attempt ≤ i → i ≤ attempt + k →
        ∃ hdrv bodyv, net.transport i = TransportStep.resp 429 hdrv bodyv ∧
          0 < parseRetryAfter net.parseTime hdrv (net.now i)) →
      (∀ i, attempt ≤ i → i < attempt + k → net.ctxDoneDuringWait i = false) →
      ((net.ctxDoneDuringWait (attempt + k) = true →
          (doLoopAux dec net fuel req attempt).result = DoResult.ctxErr ∧
          (doLoopAux dec net fuel req attempt).attempts = attempt + k + 1)
       ∧ (net.ctxDoneDuringWait (attempt + k) = false →
          attempt + k + 2 ≤ (doLoopAux dec net fuel req attempt).attempts)) := by
  intro k
  induction k with
  | zero =>
    intro fuel attempt req hlt hfuel h429 hctxs
    obtain ⟨hdrv, bodyv, htr, hw⟩ := h429 attempt le_rfl (by omega)
    constructor
    · intro hctx
      rw [doLoopAux_ctx dec net fuel req attempt hdrv bodyv htr hw (by simpa using hlt)
        (by simpa using hctx)]
      exact ⟨rfl, rfl⟩
    · intro hctx
      cases fuel with
      | zero =>
        exfalso
        simp only [max429Retries] at hlt hfuel
        omega
      | succ f =>
        rw [doLoopAux_step dec net f req attempt hdrv bodyv htr hw (by simpa using hlt)
          (by simpa using hctx)]
        dsimp only
        have := doLoopAux_attempts_ge dec net f (afterSendReset req) (attempt + 1)
        omega
  | succ k ih =>
    intro fuel attempt req hlt hfuel h429 hctxs
    obtain ⟨hdrv, bodyv, htr, hw⟩ := h429 attempt le_rfl (by omega)
    have hctx0 : net.ctxDoneDuringWait attempt = false := hctxs attempt le_rfl (by omega)
    cases fuel with
    | zero =>
      exfalso
      simp only [max429Retries] at hlt hfuel
      omega
    | succ f =>
      rw [doLoopAux_step dec net f req attempt hdrv bodyv htr hw
        (by simp only [max429Retries] at hlt ⊢; omega) hctx0]
      have ihh := ih f (attempt + 1) (afterSendReset req)
        (by omega) (by omega)
        (fun i hi1 hi2 => h429 i (by omega) (by omega))
        (fun i hi1 hi2 => hctxs i (by omega) (by omega))
      have e : attempt + 1 + k = attempt + (k + 1) := by omega
      rw [e] at ihh
      constructor
      · intro hctx
        obtain ⟨hres, hatt⟩ := ihh.1 hctx
        refine ⟨by dsimp only; exact hres, ?_⟩
        dsimp only
        omega
      · intro hctx
        have := ihh.2 hctx
        dsimp only
        omega

/-- C3: if the transport answers 429 with a positive parsed wait through
attempt `k < 3` and the caller's context was quiet during the earlier
waits, then: should the context fire during the wait after attempt `k`,
`do` returns the context's cancellation error — not a 429 APIError —
after exactly `k + 1` attempts; should the wait elapse instead, the
request is resent (at least `k + 2` attempts occur). -/
theorem do_cancellation_precedence (α : Type) (dec : GoJson → Option α) (net : Net)
    (req : GoRequest) (k : Nat)
    (hk : k < max429Retries)
    (h429 : ∀ i, i ≤ k →
      ∃ hdrv bodyv, net.transport i = TransportStep.resp 429 hdrv bodyv ∧
        0 < parseRetryAfter net.parseTime hdrv (net.now i))
    (hprev : ∀ i, i < k → net.ctxDoneDuringWait i = false) :
    (net.ctxDoneDuringWait k = true →
      (goDo dec net req).result = DoResult.ctxErr ∧
      (∀ s m e, (goDo dec net req).result ≠ DoResult.apiError s m e) ∧
      (goDo dec net req).attempts = k + 1)
    ∧ (net.ctxDoneDuringWait k = false → k + 2 ≤ (goDo dec net req).attempts) := by
  have base := doLoopAux_reach dec net k max429Retries 0 req (by omega) (by omega)
    (fun i hi1 hi2 => h429 i (by omega)) (fun i hi1 hi2 => hprev i (by omega))
  simp only [Nat.zero_add] at base
  have eg : goDo dec net req = doLoopAux dec net max429Retries req 0 := rfl
  constructor
  · intro hctx
    obtain ⟨hres, hatt⟩ := base.1 hctx
    refine ⟨by rw [eg]; exact hres, ?_, by rw [eg]; exact hatt⟩
    intro s m e hne
    rw [eg, hres] at hne
    exact DoResult.noConfusion hne
  · intro hctx
    rw [eg]
    exact base.2 hctx

/-- C3 witness: a context signalled during the first retry wait makes the
call return the cancellation error after a single attempt. -/
theorem do_cancellation_precedence_witness :
    (goDo (fun _ => some ()) (Net.mk (fun _ => TransportStep.resp 429 "1" GoJson.null)
        (fun _ => true) (fun _ => none) (fun _ => 0))
      (newRequest (NewClient "k") "GET" "/nodes" none)).result = DoResult.ctxErr
    ∧ (goDo (fun _ => some ()) (Net.mk (fun _ => TransportStep.resp 429 "1" GoJson.null)
        (fun _ => true) (fun _ => none) (fun _ => 0))
      (newRequest (NewClient "k") "GET" "/nodes" none)).attempts = 1 := by
  have h := (do_cancellation_precedence Unit (fun _ => some ())
    (Net.mk (fun _ => TransportStep.resp 429 "1" GoJson.null)
      (fun _ => true) (fun _ => none) (fun _ => 0))
    (newRequest (NewClient "k") "GET" "/nodes" none) 0 (by decide)
    (fun i hi => ⟨"1", GoJson.null, rfl, by
      show 0 < parseRetryAfter (fun _ => none) "1" 0
      decide⟩)
    (fun i hi => absurd hi (Nat.not_lt_zero i))).1 rfl
  exact ⟨h.1, h.2.2⟩

/-! ## C4: byte-identical body replay on retries -/

/-- C4: for a request built by newRequest with a body, the captured
GetBody copy equals the serialized bytes, and every body offered to the
transport during the whole retry loop — the original attempt and every
resend — is exactly that original serialization. -/
theorem do_body_replay (α : Type) (dec : GoJson → Option α) (c : Client) (net : Net)
    (method path : String) (j : GoJson) (b : Option String) :
    (newRequest c method path (some j)).getBody = some (jsonEncode false j ++ "\n")
    ∧ (b ∈ (goDo dec net (newRequest c method path (some j))).sentBodies →
        b = some (jsonEncode false j ++ "\n")) := by
  refine ⟨rfl, ?_⟩
  intro hb
  exact doLoopAux_sent_eq dec net (jsonEncode false j ++ "\n") max429Retries
    (newRequest c method path (some j)) 0 rfl rfl b hb

/-- C4 witness: the body offered on a POST attempt equals the original
compact serialization of the Update body. -/
theorem do_body_replay_witness :
    (some "\x7b\"name\":\"n\"\x7d\n" : Option String) =
      some (jsonEncode false (Update.toJson (Update.mk (some "n") none none)) ++ "\n") :=
  (do_body_replay Unit (fun _ => some ()) (NewClient "k") (constNet 200 "" GoJson.null)
    "POST" "/nodes/x" (Update.toJson (Update.mk (some "n") none none))
    (some "\x7b\"name\":\"n\"\x7d\n")).2 (by decide)

/-! ## Facts about single-response environments -/

/-- Against a transport that always answers 200 with body `bodyJ`, `do`
succeeds in one attempt with the decoded value. -/
theorem goDo_const200 {α : Type} (dec : GoJson → Option α) (bodyJ : GoJson)
    (req : GoRequest) (v : α) (hdec : dec bodyJ = some v) :
    goDo dec (constNet 200 "" bodyJ) req = ⟨DoResult.success v, 1, [req.bodyStream]⟩ := by
  have h := doLoopAux_done dec (constNet 200 "" bodyJ) max429Retries req 0 200 "" bodyJ rfl
    (by decide) (by decide) (by decide)
  rw [goDo, h, hdec]

/-! ## C5: the status marker check on mutations -/

/-- C5 (amended): for the mutation operations that decode the status
marker — update, move, complete and uncomplete — a 2xx response whose
status field is not the literal "ok" makes the operation return the
"unexpected status" error.  DeleteNode is excluded: it passes a nil
output to `do`, so the response body is discarded without any status
check. -/
theorem mutation_status_marker (c : Client) (nodeID : String) (bodyJ : GoJson)
    (st : String) (u : Update) (mv : Move)
    (hnid : nodeID ≠ "") (hpid : mv.parentID ≠ "")
    (hdec : decodeStatus bodyJ = some st) (hst : st ≠ "ok") :
    (UpdateNode c (constNet 200 "" bodyJ) nodeID u).1 =
        Except.error (GoError.unexpectedStatus st)
    ∧ (MoveNode c (constNet 200 "" bodyJ) nodeID mv).1 =
        Except.error (GoError.unexpectedStatus st)
    ∧ (CompleteNode c (constNet 200 "" bodyJ) nodeID).1 =
        Except.error (GoError.unexpectedStatus st)
    ∧ (UncompleteNode c (constNet 200 "" bodyJ) nodeID).1 =
        Except.error (GoError.unexpectedStatus st) := by
  refine ⟨?_, ?_, ?_, ?_⟩
  · unfold UpdateNode
    rw [if_neg hnid]
    dsimp only
    rw [goDo_const200 decodeStatus bodyJ _ st hdec]
    dsimp only [doResultToExcept]
    rw [if_pos hst]
  · unfold MoveNode
    rw [if_neg hnid, if_neg hpid]
    dsimp only
    rw [goDo_const200 decodeStatus bodyJ _ st hdec]
    dsimp only [doResultToExcept]
    rw [if_pos hst]
  · unfold CompleteNode
    rw [if_neg hnid]
    dsimp only
    rw [goDo_const200 decodeStatus bodyJ _ st hdec]
    dsimp only [doResultToExcept]
    rw [if_pos hst]
  · unfold UncompleteNode
    rw [if_neg hnid]
    dsimp only
    rw [goDo_const200 decodeStatus bodyJ _ st hdec]
    dsimp only [doResultToExcept]
    rw [if_pos hst]

/-- C5 counterexample: DeleteNode succeeds on a 2xx response whose status
marker is "error" (not the success token), because it never decodes the
body, so the claim's universal statement over all five mutations fails
for delete. -/
theorem delete_ignores_status_counterexample :
    decodeStatus (GoJson.objOf [("status", GoJson.str "error")]) = some "error"
    ∧ (DeleteNode (NewClient "k")
        (constNet 200 "" (GoJson.objOf [("status", GoJson.str "error")])) "n1").1 =
      Except.ok () := by
  decide

/-- C5 witness: the amended theorem applied to a concrete 2xx response
carrying status "error". -/
theorem mutation_status_marker_witness :
    (UpdateNode (NewClient "k")
        (constNet 200 "" (GoJson.objOf [("status", GoJson.str "error")])) "n1"
        (Update.mk none none none)).1 =
      Except.error (GoError.unexpectedStatus "error") :=
  (mutation_status_marker (NewClient "k") "n1"
    (GoJson.objOf [("status", GoJson.str "error")]) "error"
    (Update.mk none none none) (Move.mk "p1" none)
    (by decide) (by decide) (by decide) (by decide)).1

/-! ## C6: CreateNode validation and contract checks -/

/-- C6: CreateNode rejects an empty name locally (no request is sent);
on a 2xx response whose decoded item_id is the empty string it returns
the contract-violation error instead of the empty identifier; and only
a non-empty decoded identifier is returned as success. -/
theorem create_node_item_id (c : Client) (net : Net) (input : Create)
    (bodyJ : GoJson) (itemID : String) :
    (input.name = "" →
      CreateNode c net input = (Except.error (GoError.validation "name is required"), []))
    ∧ (input.name ≠ "" → decodeItemID bodyJ = some itemID →
        ((itemID = "" →
            (CreateNode c (constNet 200 "" bodyJ) input).1 = Except.error GoError.emptyItemID)
         ∧ (itemID ≠ "" →
            (CreateNode c (constNet 200 "" bodyJ) input).1 = Except.ok itemID))) := by
  constructor
  · intro hname
    unfold CreateNode
    rw [if_pos hname]
  · intro hname hdec
    constructor
    · intro hempty
      unfold CreateNode
      rw [if_neg hname]
      dsimp only
      rw [goDo_const200 decodeItemID bodyJ _ itemID hdec]
      dsimp only [doResultToExcept]
      rw [if_pos hempty]
    · intro hnonempty
      unfold CreateNode
      rw [if_neg hname]
      dsimp only
      rw [goDo_const200 decodeItemID bodyJ _ itemID hdec]
      dsimp only [doResultToExcept]
      rw [if_neg hnonempty]

/-- C6 witness: empty name fails locally; a 2xx body with empty item_id
is a contract violation; a 2xx body with item_id "abc" succeeds. -/
theorem create_node_item_id_witness :
    CreateNode (NewClient "k") (constNet 200 "" GoJson.null)
        (Create.mk "" "" none none none) =
      (Except.error (GoError.validation "name is required"), [])
    ∧ (CreateNode (NewClient "k")
        (constNet 200 "" (GoJson.objOf [("item_id", GoJson.str "")]))
        (Create.mk "" "x" none none none)).1 = Except.error GoError.emptyItemID
    ∧ (CreateNode (NewClient "k")
        (constNet 200 "" (GoJson.objOf [("item_id", GoJson.str "abc")]))
        (Create.mk "" "x" none none none)).1 = Except.ok "abc" := by
  refine ⟨?_, ?_, ?_⟩
  · exact (create_node_item_id (NewClient "k") (constNet 200 "" GoJson.null)
      (Create.mk "" "" none none none) GoJson.null "").1 rfl
  · exact ((create_node_item_id (NewClient "k") (constNet 200 "" GoJson.null)
      (Create.mk "" "x" none none none)
      (GoJson.objOf [("item_id", GoJson.str "")]) "").2 (by decide) (by decide)).1 rfl
  · exact ((create_node_item_id (NewClient "k") (constNet 200 "" GoJson.null)
      (Create.mk "" "x" none none none)
      (GoJson.objOf [("item_id", GoJson.str "abc")]) "abc").2 (by decide) (by decide)).2
      (by decide)

/-! ## C7: local validation before any network effect -/

/-- C7: every operation requiring a non-empty node identifier (GetNode,
UpdateNode, MoveNode, DeleteNode, CompleteNode, UncompleteNode), plus
CreateNode's name and MoveNode's destination parent, rejects an empty
value with a local validation error and an empty per-attempt log — no
request is constructed or sent. -/
theorem empty_input_local_validation (c : Client) (net : Net) (u : Update)
    (nodeID pid : String) (mvPos note lmo poso : Option String) :
    GetNode c net "" = (Except.error (GoError.validation "nodeID is required"), [])
    ∧ UpdateNode c net "" u = (Except.error (GoError.validation "nodeID is required"), [])
    ∧ MoveNode c net "" (Move.mk pid mvPos) =
        (Except.error (GoError.validation "nodeID is required"), [])
    ∧ DeleteNode c net "" = (Except.error (GoError.validation "nodeID is required"), [])
    ∧ CompleteNode c net "" = (Except.error (GoError.validation "nodeID is required"), [])
    ∧ UncompleteNode c net "" = (Except.error (GoError.validation "nodeID is required"), [])
    ∧ CreateNode c net (Create.mk pid "" note lmo poso) =
        (Except.error (GoError.validation "name is required"), [])
    ∧ (MoveNode c net nodeID (Move.mk "" mvPos)).2 = []
    ∧ resultIsLocalValidation (MoveNode c net nodeID (Move.mk "" mvPos)).1 = true := by
  refine ⟨rfl, rfl, rfl, rfl, rfl, rfl, rfl, ?_, ?_⟩ <;>
    (unfold MoveNode
     by_cases hnid : nodeID = "" <;>
       simp [hnid, resultIsLocalValidation, GoError.isLocalValidation])

/-! ## C10: no payload validation on reads -/

/-- C10: a successful GetNode always returns a non-nil node pointer, and
neither GetNode nor ListNodes validates the decoded payload: any 2xx
body that decodes — including an empty JSON object, which yields the
zero node (empty identifier) for GetNode and a nil slice for
ListNodes — is returned as success without error. -/
theorem read_ops_no_validation (c : Client) (net : Net) (nodeID parentID : String)
    (bodyJ : GoJson) (nd : Node) (ns : Option (List (Option Node))) (p : Option Node) :
    ((GetNode c net nodeID).1 = Except.ok p → p.isSome = true)
    ∧ (nodeID ≠ "" → decodeNodeEnvelope bodyJ = some nd →
        (GetNode c (constNet 200 "" bodyJ) nodeID).1 = Except.ok (some nd))
    ∧ (decodeNodesEnvelope bodyJ = some ns →
        (ListNodes c (constNet 200 "" bodyJ) parentID).1 = Except.ok ns)
    ∧ decodeNodeEnvelope (GoJson.obj GoJsonFields.nil) = some zeroNode
    ∧ zeroNode.id = ""
    ∧ decodeNodesEnvelope (GoJson.obj GoJsonFields.nil) = some none := by
  refine ⟨?_, ?_, ?_, by decide, rfl, by decide⟩
  · intro hok
    unfold GetNode at hok
    by_cases hnid : nodeID = ""
    · rw [if_pos hnid] at hok
      simp at hok
    · rw [if_neg hnid] at hok
      dsimp only at hok
      generalize doResultToExcept (goDo decodeNodeEnvelope net
          (newRequest c "GET" ("/nodes/" ++ pathEscape nodeID) none)).result = r at hok
      cases r with
      | error e => simp at hok
      | ok nd2 =>
        dsimp only at hok
        simp only [Except.ok.injEq] at hok
        subst hok
        rfl
  · intro hnid hdec
    unfold GetNode
    rw [if_neg hnid]
    dsimp only
    rw [goDo_const200 decodeNodeEnvelope bodyJ _ nd hdec]
    dsimp only [doResultToExcept]
  · intro hdec
    unfold ListNodes
    dsimp only
    rw [goDo_const200 decodeNodesEnvelope bodyJ _ ns hdec]
    dsimp only [doResultToExcept]

/-- C10 witness: a 2xx empty-object body yields the zero node from
GetNode and a nil slice from ListNodes, as successes. -/
theorem read_ops_no_validation_witness :
    (GetNode (NewClient "k") (constNet 200 "" (GoJson.obj GoJsonFields.nil)) "n1").1 =
      Except.ok (some zeroNode)
    ∧ (ListNodes (NewClient "k") (constNet 200 "" (GoJson.obj GoJsonFields.nil)) "").1 =
      Except.ok none := by
  constructor
  · exact (read_ops_no_validation (NewClient "k") (constNet 200 "" (GoJson.obj GoJsonFields.nil))
      "n1" "" (GoJson.obj GoJsonFields.nil) zeroNode none none).2.1 (by decide) (by decide)
  · exact (read_ops_no_validation (NewClient "k") (constNet 200 "" (GoJson.obj GoJsonFields.nil))
      "n1" "" (GoJson.obj GoJsonFields.nil) zeroNode none none).2.2.1 (by decide)

/-! ## C8: compact encoding with HTML escaping disabled -/

/-- Counting a character distributes over string concatenation. -/
theorem countChar_append (ch : Char) (a b : String) :
    countChar ch (a ++ b) = countChar ch a + countChar ch b := by
  simp [countChar, String.data_append]

/-- Counting a character in a concatenation of images. -/
theorem countChar_concatMap (ch : Char) (f : Char → String) (l : List Char) :
    countChar ch (concatMap f l) = (l.map (fun c => countChar ch (f c))).sum := by
  induction l with
  | nil => simp [concatMap, countChar]
  | cons c cs ih => simp [concatMap, countChar_append, ih]

/-- A list element fetched with a default is an element or the default. -/
theorem list_getD_mem_or_default {α : Type} (l : List α) (n : Nat) (d : α) :
    l.getD n d ∈ l ∨ l.getD n d = d := by
  rcases h : l[n]? with _ | a
  · right
    simp [List.getD_eq_getElem?_getD, h]
  · left
    have hm : a ∈ l := List.getElem?_mem h
    simpa [List.getD_eq_getElem?_getD, h] using hm

/-- Hexadecimal digits are never the HTML-escaped characters. -/
theorem lowerHexDigit_not_special (n : Nat) (ch : Char)
    (hch : ch = '<' ∨ ch = '>' ∨ ch = '&') : ¬lowerHexDigit n = ch := by
  unfold lowerHexDigit
  rcases list_getD_mem_or_default "0123456789abcdef".data n '0' with hm | hd
  · intro e
    rw [e] at hm
    rcases hch with rfl | rfl | rfl <;> revert hm <;> decide
  · rw [hd]
    rcases hch with rfl | rfl | rfl <;> decide

set_option maxHeartbeats 1000000 in
/-- With HTML escaping disabled, one escaped rune contains less-than
exactly as often as the rune is less-than. -/
theorem countChar_escRune_lt (c : Char) :
    countChar '<' (escRune false c) = if c = '<' then 1 else 0 := by
  by_cases hc : c = '<'
  · subst hc; decide
  · rw [if_neg hc]
    unfold escRune
    split_ifs with h1 h2 h3 h4 h5 h6 h7 h8 h9 h10 h11
    · subst h1; decide
    · subst h2; decide
    · exact h3.1.elim
    · exact h4.1.elim
    · exact h5.1.elim
    · subst h6; decide
    · subst h7; decide
    · subst h8; decide
    · have hx1 := lowerHexDigit_not_special (c.toNat / 16) '<' (Or.inl rfl)
      have hx2 := lowerHexDigit_not_special (c.toNat % 16) '<' (Or.inl rfl)
      simp [countChar, List.countP_cons, List.countP_nil, hx1, hx2]
    · decide
    · decide
    · simp [countChar, String.singleton, List.countP_cons, List.countP_nil, hc]

set_option maxHeartbeats 1000000 in
/-- With HTML escaping disabled, one escaped rune contains greater-than
exactly as often as the rune is greater-than. -/
theorem countChar_escRune_gt (c : Char) :
    countChar '>' (escRune false c) = if c = '>' then 1 else 0 := by
  by_cases hc : c = '>'
  · subst hc; decide
  · rw [if_neg hc]
    unfold escRune
    split_ifs with h1 h2 h3 h4 h5 h6 h7 h8 h9 h10 h11
    · subst h1; decide
    · subst h2; decide
    · exact h3.1.elim
    · exact h4.1.elim
    · exact h5.1.elim
    · subst h6; decide
    · subst h7; decide
    · subst h8; decide
    · have hx1 := lowerHexDigit_not_special (c.toNat / 16) '>' (Or.inr (Or.inl rfl))
      have hx2 := lowerHexDigit_not_special (c.toNat % 16) '>' (Or.inr (Or.inl rfl))
      simp [countChar, List.countP_cons, List.countP_nil, hx1, hx2]
    · decide
    · decide
    · simp [countChar, String.singleton, List.countP_cons, List.countP_nil, hc]

set_option maxHeartbeats 1000000 in
/-- With HTML escaping disabled, one escaped rune contains the
ampersand exactly as often as the rune is the ampersand. -/
theorem countChar_escRune_amp (c : Char) :
    countChar '&' (escRune false c) = if c = '&' then 1 else 0 := by
  by_cases hc : c = '&'
  · subst hc; decide
  · rw [if_neg hc]
    unfold escRune
    split_ifs with h1 h2 h3 h4 h5 h6 h7 h8 h9 h10 h11
    · subst h1; decide
    · subst h2; decide
    · exact h3.1.elim
    · exact h4.1.elim
    · exact h5.1.elim
    · subst h6; decide
    · subst h7; decide
    · subst h8; decide
    · have hx1 := lowerHexDigit_not_special (c.toNat / 16) '&' (Or.inr (Or.inr rfl))
      have hx2 := lowerHexDigit_not_special (c.toNat % 16) '&' (Or.inr (Or.inr rfl))
      simp [countChar, List.countP_cons, List.countP_nil, hx1, hx2]
    · decide
    · decide
    · simp [countChar, String.singleton, List.countP_cons, List.countP_nil, hc]

/-- With HTML escaping disabled, the escape of one rune contains the
characters less-than, greater-than and ampersand exactly as often as
the rune is that character: those three pass through unescaped, and no
escape sequence introduces them. -/
theorem countChar_escRune (ch : Char) (hch : ch = '<' ∨ ch = '>' ∨ ch = '&') (c : Char) :
    countChar ch (escRune false c) = if c = ch then 1 else 0 := by
  rcases hch with rfl | rfl | rfl
  · exact countChar_escRune_lt c
  · exact countChar_escRune_gt c
  · exact countChar_escRune_amp c

/-- With HTML escaping disabled, quoting a string preserves the number of
occurrences of less-than, greater-than and ampersand. -/
theorem countChar_goQuote (ch : Char) (hch : ch = '<' ∨ ch = '>' ∨ ch = '&') (s : String) :
    countChar ch (goQuote false s) = countChar ch s := by
  have hq : countChar ch "\"" = 0 := by rcases hch with rfl | rfl | rfl <;> decide
  have hsum : ∀ l : List Char,
      (l.map (fun c => countChar ch (escRune false c))).sum = countChar ch (String.mk l) := by
    intro l
    induction l with
    | nil => rcases hch with rfl | rfl | rfl <;> decide
    | cons c cs ih =>
      rw [List.map_cons, List.sum_cons, ih, countChar_escRune ch hch c]
      simp only [countChar, List.countP_cons]
      by_cases hcc : c = ch <;> simp [hcc] <;> omega
  unfold goQuote
  rw [countChar_append, countChar_append, hq, countChar_concatMap, hsum s.data]
  simp [countChar]

/-- Encoding a flat object of string fields — the shape of every request
body this library sends — with HTML escaping disabled preserves the
occurrence counts of less-than, greater-than and ampersand from the
field names and values. -/
theorem countChar_encodeFields_strs (ch : Char) (hch : ch = '<' ∨ ch = '>' ∨ ch = '&') :
    ∀ fs : List (String × String),
      countChar ch (jsonEncodeFields false (GoJsonFields.ofList
          (fs.map (fun p => (p.1, GoJson.str p.2))))) =
        (fs.map (fun p => countChar ch p.1 + countChar ch p.2)).sum := by
  have hcolon : countChar ch ":" = 0 := by rcases hch with rfl | rfl | rfl <;> decide
  have hcomma : countChar ch "," = 0 := by rcases hch with rfl | rfl | rfl <;> decide
  intro fs
  induction fs with
  | nil => rcases hch with rfl | rfl | rfl <;> decide
  | cons p rest ih =>
    cases rest with
    | nil =>
      rcases p with ⟨k, v⟩
      simp only [List.map_cons, List.map_nil, GoJsonFields.ofList, jsonEncodeFields, jsonEncode]
      simp only [countChar_append, hcolon, countChar_goQuote ch hch]
      simp only [List.sum_cons, List.sum_nil]
      omega
    | cons q rest2 =>
      rcases p with ⟨k, v⟩
      simp only [List.map_cons, GoJsonFields.ofList, jsonEncodeFields, jsonEncode]
      simp only [List.map_cons, GoJsonFields.ofList] at ih
      simp only [countChar_append, hcolon, hcomma, countChar_goQuote ch hch] at ih ⊢
      simp only [List.map_cons, List.sum_cons] at ih ⊢
      omega

/-- C8: every body given to newRequest is serialized by the compact JSON
encoder with HTML escaping disabled, followed by the newline
Encoder.Encode appends; consequently, for the flat string-field objects
this library sends, literal less-than, greater-than and ampersand
characters in field names and values appear unescaped —
occurrence-for-occurrence — in the body bytes. -/
theorem newRequest_html_escape_disabled (c0 : Client) (method path : String) (j : GoJson)
    (fs : List (String × String)) (ch : Char) :
    (newRequest c0 method path (some j)).bodyStream = some (jsonEncode false j ++ "\n")
    ∧ ((ch = '<' ∨ ch = '>' ∨ ch = '&') →
        countChar ch (jsonEncode false (GoJson.objOf (fs.map (fun p => (p.1, GoJson.str p.2))))) =
          (fs.map (fun p => countChar ch p.1 + countChar ch p.2)).sum) := by
  refine ⟨rfl, ?_⟩
  intro hch
  have hopen : countChar ch "\x7b" = 0 := by rcases hch with rfl | rfl | rfl <;> decide
  have hclose : countChar ch "\x7d" = 0 := by rcases hch with rfl | rfl | rfl <;> decide
  show countChar ch ("\x7b" ++ jsonEncodeFields false (GoJsonFields.ofList
      (fs.map (fun p => (p.1, GoJson.str p.2)))) ++ "\x7d") = _
  simp only [countChar_append, hopen, hclose]
  rw [countChar_encodeFields_strs ch hch fs]
  omega

/-- C8 witness: a literal less-than inside a name field survives the
encoding unescaped. -/
theorem newRequest_html_escape_disabled_witness :
    countChar '<' (jsonEncode false (GoJson.objOf [("name", GoJson.str "a<b")])) = 1 :=
  ((newRequest_html_escape_disabled (NewClient "k") "POST" "/nodes" GoJson.null
    [("name", "a<b")] '<').2 (Or.inl rfl)).trans (by decide)

end Workflowy

